import Mathlib

/-!
Verification of the session ingestion and bounded extraction pipeline of
rtcstats-server (src/app.js).

The development shallowly embeds two parts of app.js:

1. The per-connection ingestion handler registered in
   wss.on("connection", ...) (lines 164-236): the metadata write, the
   nextTick geolocation write, the message handler with its allow-list and
   redaction branches, and the close handler together with the finish
   callback that either enqueues the session or unlinks its file.

2. The ProcessQueue class (lines 40-94): enqueue, process (dispatch), and
   the three child-process reactions registered per worker: exit, message
   and error.

Modelling conventions: handlers run atomically in arrival order, which
matches the Node single-threaded cooperative model; a process.nextTick
scheduled inside a handler runs before the next external event, so a
scheduled dispatch is folded into the step that scheduled it. External
collaborators are parameters: the redaction function obfuscate (module
./obfuscator, which may mutate the event or throw, modelled as a function
into Option), the JSON parse outcome, the geo lookup result, the read
result of fs.readFile, and worker exit codes. Machine integers do not
overflow here; counters are Nat or Int (numProc is Int because the code
itself guards against it going negative).
-/

namespace RtcStats

/-- Minimal JSON value shape: enough to express the inbound event arrays,
whose first element is the type tag consulted by the switch in the message
handler. -/
inductive JVal where
  | str : String → JVal
  | num : Int → JVal
  | jnull : JVal
  | arr : List JVal → JVal

/-- Metadata record written synchronously at connection time
(app.js lines 184-192). -/
structure MetaRec where
  path : String
  origin : String
  url : String
  userAgent : String
  time : Nat
  fileFormat : Nat

/-- Builds the meta object exactly as the connection handler does:
url is the origin header concatenated with the request url, and
fileFormat is the constant 2. -/
def mkMeta (path origin userAgent : String) (time : Nat) : MetaRec :=
  { path := path
  , origin := origin
  , url := origin ++ path
  , userAgent := userAgent
  , time := time
  , fileFormat := 2 }

/-- One line of the on-disk session log. The code writes stringified JSON
lines; we keep them structured, one constructor per kind of line. -/
inductive LogRecord where
  | meta : MetaRec → LogRecord
  | event : JVal → LogRecord
  | location : Option String → Nat → LogRecord
  | close : Nat → LogRecord

/-- The fixed allow-list of the switch statement in the message handler
(app.js lines 211-217). -/
def allowList : List String :=
  [ "getUserMedia"
  , "getUserMediaOnSuccess"
  , "getUserMediaOnFailure"
  , "navigator.mediaDevices.getUserMedia"
  , "navigator.mediaDevices.getUserMediaOnSuccess"
  , "navigator.mediaDevices.getUserMediaOnFailure" ]

/-- Whether switch(data[0]) hits one of the six non-default cases: data[0]
must be one of the allow-listed strings, which requires data to be an
array whose first element is a string. Anything else falls to the default
branch. -/
def isAllowed : JVal → Bool
  | JVal.arr (JVal.str tag :: _) => allowList.contains tag
  | _ => false

/-- Per-connection mutable state of the ingestion handler. tempStream is
some log while the write stream is open and none after the close handler
sets it to null. finalLog records the file contents at the moment the
finish callback enqueued the session; enqueued and fileDeleted record
which branch the finish callback took; errorsLogged counts console.error
calls from the catch block. -/
structure Session where
  numberOfEvents : Nat
  tempStream : Option (List LogRecord)
  finalLog : Option (List LogRecord)
  enqueued : Bool
  fileDeleted : Bool
  errorsLogged : Nat

/-- State right after the connection handler ran: the meta line has been
written and no events have been counted. -/
def initSession (m : MetaRec) : Session :=
  { numberOfEvents := 0
  , tempStream := some [LogRecord.meta m]
  , finalLog := none
  , enqueued := false
  , fileDeleted := false
  , errorsLogged := 0 }

/-- tempStream.write of one event line. When the stream has been nulled
the write throws; inside the message handler that throw is caught by the
surrounding try and logged. -/
def writeEvent (s : Session) (r : LogRecord) : Session :=
  match s.tempStream with
  | some log => { s with tempStream := some (log ++ [r]) }
  | none => { s with errorsLogged := s.errorsLogged + 1 }

/-- The client.on("message") handler (app.js lines 206-228). The parse
outcome of JSON.parse(msg) is the parameter: none means the parse threw,
and the catch block logs the error. On a successful parse the event
counter is incremented, then the switch either appends the event
unmodified (allow-listed tag) or applies obfuscate first; a throw inside
obfuscate is also caught and logged, dropping the event. -/
def onMessage (obfuscate : JVal → Option JVal) (s : Session) (m : Option JVal) :
    Session :=
  match m with
  | none => { s with errorsLogged := s.errorsLogged + 1 }
  | some d =>
    let s1 := { s with numberOfEvents := s.numberOfEvents + 1 }
    if isAllowed d then
      writeEvent s1 (LogRecord.event d)
    else
      match obfuscate d with
      | none => { s1 with errorsLogged := s1.errorsLogged + 1 }
      | some d2 => writeEvent s1 (LogRecord.event d2)

/-- The process.nextTick geolocation callback (app.js lines 196-201):
writes a location line only if tempStream is still non-null, and is
silently dropped otherwise. -/
def locationWrite (s : Session) (city : Option String) (t : Nat) : Session :=
  match s.tempStream with
  | some log => { s with tempStream := some (log ++ [LogRecord.location city t]) }
  | none => s

/-- The client.on("close") handler (app.js lines 230-235) together with
the finish callback of the stream (lines 174-182): append the close line,
end the stream and null tempStream; the finish callback then enqueues the
session when at least one event was counted and unlinks the file
otherwise. -/
def onClose (s : Session) (t : Nat) : Session :=
  match s.tempStream with
  | none => s
  | some log =>
    let fin := log ++ [LogRecord.close t]
    if s.numberOfEvents > 0 then
      { s with tempStream := none, finalLog := some fin, enqueued := true }
    else
      { s with tempStream := none, finalLog := none, fileDeleted := true }

/-- External happenings a session reacts to, in arrival order: an inbound
message carrying its JSON.parse outcome, the geolocation callback carrying
the lookup result and timestamp, and the connection close. -/
inductive SessEvent where
  | message : Option JVal → SessEvent
  | locationCb : Option String → Nat → SessEvent
  | close : Nat → SessEvent

/-- One session step: dispatches an event to the corresponding handler. -/
def sessStep (obfuscate : JVal → Option JVal) (s : Session) : SessEvent → Session
  | SessEvent.message m => onMessage obfuscate s m
  | SessEvent.locationCb city t => locationWrite s city t
  | SessEvent.close t => onClose s t

/-- Runs a whole session: folds the handlers over the event list starting
from the state left by the connection handler. -/
def runSession (obfuscate : JVal → Option JVal) (m : MetaRec)
    (evs : List SessEvent) : Session :=
  evs.foldl (sessStep obfuscate) (initSession m)

/-- True when an event is the connection close. -/
def isCloseEv : SessEvent → Bool
  | SessEvent.close _ => true
  | _ => false

/-- True when no close occurs in the list: the body of a session before
its single final close. -/
def noClose (evs : List SessEvent) : Bool :=
  evs.all fun e => !(isCloseEv e)

/-- Number of geolocation callbacks in an event list; at most one is ever
scheduled per connection. -/
def locCbCount (evs : List SessEvent) : Nat :=
  evs.countP fun e =>
    match e with
    | SessEvent.locationCb _ _ => true
    | _ => false

/-- Number of inbound messages in an event list, malformed ones
included. -/
def inboundCount (evs : List SessEvent) : Nat :=
  evs.countP fun e =>
    match e with
    | SessEvent.message _ => true
    | _ => false

/-- Number of inbound messages whose JSON.parse succeeded. -/
def parseOkCount : List SessEvent → Nat
  | [] => 0
  | SessEvent.message (some _) :: rest => parseOkCount rest + 1
  | _ :: rest => parseOkCount rest

/-- The log lines the body of a session appends, in order: one line per
successfully processed message (redacted unless allow-listed) and one line
per geolocation callback that found the stream open. Mirrors the branch
structure of onMessage and locationWrite for an open stream. -/
def bodyRecords (obfuscate : JVal → Option JVal) : List SessEvent → List LogRecord
  | [] => []
  | SessEvent.message none :: rest => bodyRecords obfuscate rest
  | SessEvent.message (some d) :: rest =>
    if isAllowed d then
      LogRecord.event d :: bodyRecords obfuscate rest
    else
      match obfuscate d with
      | none => bodyRecords obfuscate rest
      | some d2 => LogRecord.event d2 :: bodyRecords obfuscate rest
  | SessEvent.locationCb city t :: rest =>
    LogRecord.location city t :: bodyRecords obfuscate rest
  | SessEvent.close _ :: rest => bodyRecords obfuscate rest

/-- The event payloads the body appends, in receipt order: each
successfully parsed message contributes its payload, unmodified when
allow-listed and redacted otherwise; dropped messages contribute
nothing. -/
def appendedEvents (obfuscate : JVal → Option JVal) : List SessEvent → List JVal
  | [] => []
  | SessEvent.message none :: rest => appendedEvents obfuscate rest
  | SessEvent.message (some d) :: rest =>
    if isAllowed d then
      d :: appendedEvents obfuscate rest
    else
      match obfuscate d with
      | none => appendedEvents obfuscate rest
      | some d2 => d2 :: appendedEvents obfuscate rest
  | SessEvent.locationCb _ _ :: rest => appendedEvents obfuscate rest
  | SessEvent.close _ :: rest => appendedEvents obfuscate rest

/-- True on event lines of the log. -/
def isEventRec : LogRecord → Bool
  | LogRecord.event _ => true
  | _ => false

/-- True on location lines of the log. -/
def isLocRec : LogRecord → Bool
  | LogRecord.location _ _ => true
  | _ => false

/-- A structured result message emitted by a worker, destructured by the
p.on("message") handler (app.js lines 80-83) and forwarded to
Database.put. Payload fields are kept as strings. -/
structure DbMsg where
  url : String
  clientid : String
  connid : String
  clientFeatures : String
  connectionFeatures : String
  streamFeatures : String
deriving DecidableEq

/-- The ProcessQueue state (app.js lines 40-94) extended with observation
fields for the side effects of the handlers. q, numProc and maxProc are
the fields of the class; forked lists the client ids passed to
child_process.fork in fork order, so a worker is named by its index in
forked; exited and errored record which workers already fired their exit
and error events; processedMetric and erroredMetric are the two
prom-client counters; storePuts collects Store.put calls, dbPuts collects
Database.put calls, and files is the temp working directory as an
association list from client id to file contents. -/
structure ProcessQueue where
  maxProc : Nat
  q : List String
  numProc : Int
  forked : List String
  exited : List Nat
  errored : List Nat
  processedMetric : Nat
  erroredMetric : Nat
  storePuts : List (String × String)
  dbPuts : List DbMsg
  files : List (String × String)
deriving DecidableEq

/-- The process() method (app.js lines 54-57, 89): shift the head of the
pending queue; if the queue was empty return, otherwise fork a worker for
the popped id and increment numProc. The handler registrations themselves
have no immediate effect. -/
def ProcessQueue.process (s : ProcessQueue) : ProcessQueue :=
  match s.q with
  | [] => s
  | id :: rest =>
    { s with q := rest, forked := s.forked ++ [id], numProc := s.numProc + 1 }

/-- The guarded dispatch common to enqueue and the exit handler: both
schedule process() on the next tick only when numProc < maxProc. A
nextTick callback runs before the next external event, so the dispatch is
folded into the scheduling step. -/
def ProcessQueue.maybeDispatch (s : ProcessQueue) : ProcessQueue :=
  if s.numProc < (s.maxProc : Int) then s.process else s

/-- The enqueue(clientid) method (app.js lines 46-53): push the id at the
tail, then schedule a dispatch if below capacity (otherwise only a warning
is logged). -/
def ProcessQueue.enqueue (s : ProcessQueue) (id : String) : ProcessQueue :=
  ProcessQueue.maybeDispatch { s with q := s.q ++ [id] }

/-- The metric bookkeeping of the exit handler (app.js lines 61-65):
processed.inc() when the exit code is exactly 0, errored.inc()
otherwise. The code compares with === 0, so a null code (signal
termination) counts as an error; the code is therefore an Option Int. -/
def ProcessQueue.recordMetric (s : ProcessQueue) (code : Option Int) : ProcessQueue :=
  if code = some 0 then { s with processedMetric := s.processedMetric + 1 }
  else { s with erroredMetric := s.erroredMetric + 1 }

/-- The clamp in the exit handler (app.js line 66): a negative numProc is
reset to zero. -/
def ProcessQueue.clampNumProc (s : ProcessQueue) : ProcessQueue :=
  if s.numProc < 0 then { s with numProc := 0 } else s

/-- The fs.readFile callback of the exit handler (app.js lines 68-78): on
a read error only a message is logged and the callback returns; on
success the file is unlinked and its full contents forwarded to
Store.put. The read outcome is the parameter readResult. -/
def ProcessQueue.handleReadResult (s : ProcessQueue) (id : String)
    (readResult : Option String) : ProcessQueue :=
  match readResult with
  | none => s
  | some data =>
    { s with
        files := s.files.filter fun kv => kv.1 ≠ id
      , storePuts := s.storePuts ++ [(id, data)] }

/-- The p.on("exit") handler (app.js lines 58-79) for worker w, firing at
most once per worker: decrement numProc, record the metric, clamp a
negative count to zero, schedule a dispatch if below capacity, then run
the readFile callback with the given read outcome. -/
def ProcessQueue.onExit (s : ProcessQueue) (w : Nat) (code : Option Int)
    (readResult : Option String) : ProcessQueue :=
  match s.forked.get? w with
  | none => s
  | some id =>
    if w ∈ s.exited then s
    else
      ProcessQueue.handleReadResult
        (ProcessQueue.maybeDispatch
          (ProcessQueue.clampNumProc
            (ProcessQueue.recordMetric
              { s with numProc := s.numProc - 1, exited := w :: s.exited }
              code)))
        id readResult

/-- The p.on("message") handler (app.js lines 80-83) for worker w:
forward the structured result to Database.put. -/
def ProcessQueue.onMessage (s : ProcessQueue) (w : Nat) (m : DbMsg) : ProcessQueue :=
  match s.forked.get? w with
  | none => s
  | some _ => { s with dbPuts := s.dbPuts ++ [m] }

/-- The p.on("error") handler (app.js lines 84-88) for worker w, firing
at most once per worker: decrement numProc with no clamp and push the
same client id back at the tail of the pending queue; no dispatch is
scheduled. -/
def ProcessQueue.onError (s : ProcessQueue) (w : Nat) : ProcessQueue :=
  match s.forked.get? w with
  | none => s
  | some id =>
    if w ∈ s.errored then s
    else
      { s with numProc := s.numProc - 1, errored := w :: s.errored, q := s.q ++ [id] }

/-- External happenings the queue reacts to: an enqueue from a finished
session, a worker exit carrying the exit code and the later readFile
outcome, a worker result message, and a worker spawn failure. -/
inductive QEvent where
  | enqueue : String → QEvent
  | exited : Nat → Option Int → Option String → QEvent
  | message : Nat → DbMsg → QEvent
  | errored : Nat → QEvent

/-- One queue step: dispatches an event to the corresponding handler. -/
def qStep (s : ProcessQueue) : QEvent → ProcessQueue
  | QEvent.enqueue id => s.enqueue id
  | QEvent.exited w code r => s.onExit w code r
  | QEvent.message w m => s.onMessage w m
  | QEvent.errored w => s.onError w

/-- Initial queue state: maxProc is os.cpus().length, fixed at
construction; everything else is empty (the working directory is
recreated empty at process start). -/
def initQueue (maxProc : Nat) : ProcessQueue :=
  { maxProc := maxProc
  , q := []
  , numProc := 0
  , forked := []
  , exited := []
  , errored := []
  , processedMetric := 0
  , erroredMetric := 0
  , storePuts := []
  , dbPuts := []
  , files := [] }

/-- Runs the queue over a list of external events. -/
def runQueue (maxProc : Nat) (evs : List QEvent) : ProcessQueue :=
  evs.foldl qStep (initQueue maxProc)

/-- Core session lemma: folding the handlers over a close-free body with
an open stream appends exactly bodyRecords to the log, adds the number of
successfully parsed messages to the event counter, and leaves the
enqueued, fileDeleted and finalLog fields untouched. -/
theorem foldlBody (obfuscate : JVal → Option JVal) :
    ∀ (body : List SessEvent) (s : Session) (log : List LogRecord),
      noClose body = true → s.tempStream = some log →
      ((body.foldl (sessStep obfuscate) s).tempStream
          = some (log ++ bodyRecords obfuscate body) ∧
       (body.foldl (sessStep obfuscate) s).numberOfEvents
          = s.numberOfEvents + parseOkCount body ∧
       (body.foldl (sessStep obfuscate) s).enqueued = s.enqueued ∧
       (body.foldl (sessStep obfuscate) s).fileDeleted = s.fileDeleted ∧
       (body.foldl (sessStep obfuscate) s).finalLog = s.finalLog) := by
  intro body
  induction body with
  | nil =>
    intro s log hnc hs
    simp [bodyRecords, parseOkCount, hs]
  | cons e rest ih =>
    intro s log hnc hs
    have hnc2 : noClose rest = true := by
      simp only [noClose, List.all_cons, Bool.and_eq_true] at hnc
      exact hnc.2
    cases e with
    | message m =>
      cases m with
      | none =>
        have h1 : sessStep obfuscate s (SessEvent.message none)
            = { s with errorsLogged := s.errorsLogged + 1 } := rfl
        rw [List.foldl_cons, h1]
        have := ih { s with errorsLogged := s.errorsLogged + 1 } log hnc2 hs
        simpa [bodyRecords, parseOkCount] using this
      | some d =>
        by_cases hA : isAllowed d = true
        · have h1 : sessStep obfuscate s (SessEvent.message (some d))
              = { s with numberOfEvents := s.numberOfEvents + 1,
                         tempStream := some (log ++ [LogRecord.event d]) } := by
            simp [sessStep, onMessage, hA, writeEvent, hs]
          rw [List.foldl_cons, h1]
          have := ih
            { s with numberOfEvents := s.numberOfEvents + 1,
                     tempStream := some (log ++ [LogRecord.event d]) }
            (log ++ [LogRecord.event d]) hnc2 rfl
          simp only [bodyRecords, parseOkCount, hA, if_true] at this ⊢
          refine ⟨?_, ?_, this.2.2⟩
          · rw [this.1]; simp
          · rw [this.2.1]; omega
        · cases hO : obfuscate d with
          | none =>
            have h1 : sessStep obfuscate s (SessEvent.message (some d))
                = { s with numberOfEvents := s.numberOfEvents + 1,
                           errorsLogged := s.errorsLogged + 1 } := by
              simp [sessStep, onMessage, hA, hO]
            rw [List.foldl_cons, h1]
            have := ih
              { s with numberOfEvents := s.numberOfEvents + 1,
                       errorsLogged := s.errorsLogged + 1 } log hnc2 hs
            simp only [bodyRecords, parseOkCount, hA, if_false, hO] at this ⊢
            refine ⟨this.1, ?_, this.2.2⟩
            rw [this.2.1]; omega
          | some d2 =>
            have h1 : sessStep obfuscate s (SessEvent.message (some d))
                = { s with numberOfEvents := s.numberOfEvents + 1,
                           tempStream := some (log ++ [LogRecord.event d2]) } := by
              simp [sessStep, onMessage, hA, hO, writeEvent, hs]
            rw [List.foldl_cons, h1]
            have := ih
              { s with numberOfEvents := s.numberOfEvents + 1,
                       tempStream := some (log ++ [LogRecord.event d2]) }
              (log ++ [LogRecord.event d2]) hnc2 rfl
            simp only [bodyRecords, parseOkCount, hA, if_false, hO] at this ⊢
            refine ⟨?_, ?_, this.2.2⟩
            · rw [this.1]; simp
            · rw [this.2.1]; omega
    | locationCb city t =>
      have h1 : sessStep obfuscate s (SessEvent.locationCb city t)
          = { s with tempStream := some (log ++ [LogRecord.location city t]) } := by
        simp [sessStep, locationWrite, hs]
      rw [List.foldl_cons, h1]
      have := ih
        { s with tempStream := some (log ++ [LogRecord.location city t]) }
        (log ++ [LogRecord.location city t]) hnc2 rfl
      simp only [bodyRecords, parseOkCount] at this ⊢
      refine ⟨?_, this.2.1, this.2.2⟩
      rw [this.1]; simp
    | close t =>
      exfalso
      simp [noClose, isCloseEv] at hnc

/-- The event lines among the body records are exactly the appended
payloads in receipt order. -/
theorem bodyRecords_filter_event (obfuscate : JVal → Option JVal) :
    ∀ body, (bodyRecords obfuscate body).filter isEventRec
      = (appendedEvents obfuscate body).map LogRecord.event := by
  intro body
  induction body with
  | nil => rfl
  | cons e rest ih =>
    cases e with
    | message m =>
      cases m with
      | none => simpa [bodyRecords, appendedEvents] using ih
      | some d =>
        by_cases hA : isAllowed d = true
        · simp [bodyRecords, appendedEvents, hA, isEventRec, ih]
        · cases hO : obfuscate d with
          | none =>
            simp [bodyRecords, appendedEvents, hA, hO, ih]
          | some d2 =>
            simp [bodyRecords, appendedEvents, hA, hO, isEventRec, ih]
    | locationCb city t =>
      simp [bodyRecords, appendedEvents, isEventRec, isLocRec, ih]
    | close t => simp [bodyRecords, appendedEvents, ih]

/-- The body appends exactly one location line per geolocation
callback. -/
theorem bodyRecords_countLoc (obfuscate : JVal → Option JVal) :
    ∀ body, (bodyRecords obfuscate body).countP isLocRec = locCbCount body := by
  intro body
  induction body with
  | nil => rfl
  | cons e rest ih =>
    cases e with
    | message m =>
      cases m with
      | none => simpa [bodyRecords, locCbCount, List.countP_cons] using ih
      | some d =>
        by_cases hA : isAllowed d = true
        · simpa [bodyRecords, locCbCount, List.countP_cons, hA, isLocRec] using ih
        · cases hO : obfuscate d with
          | none =>
            simpa [bodyRecords, locCbCount, List.countP_cons, hA, hO] using ih
          | some d2 =>
            simpa [bodyRecords, locCbCount, List.countP_cons, hA, hO, isLocRec] using ih
    | locationCb city t =>
      simpa [bodyRecords, locCbCount, List.countP_cons, isLocRec] using ih
    | close t => simpa [bodyRecords, locCbCount, List.countP_cons] using ih

/-- Every body record is an event line or a location line: no second meta
line and no early close line is ever appended. -/
theorem bodyRecords_kinds (obfuscate : JVal → Option JVal) :
    ∀ body r, r ∈ bodyRecords obfuscate body →
      isEventRec r = true ∨ isLocRec r = true := by
  intro body
  induction body with
  | nil => intro r hr; simp [bodyRecords] at hr
  | cons e rest ih =>
    intro r hr
    cases e with
    | message m =>
      cases m with
      | none => exact ih r (by simpa [bodyRecords] using hr)
      | some d =>
        by_cases hA : isAllowed d = true
        · have hr2 : r = LogRecord.event d ∨ r ∈ bodyRecords obfuscate rest :=
            List.mem_cons.mp (by simpa only [bodyRecords, hA, if_true] using hr)
          rcases hr2 with h | h
          · left; rw [h]; rfl
          · exact ih r h
        · cases hO : obfuscate d with
          | none =>
            refine ih r ?_
            simpa only [bodyRecords, hA, if_false, hO] using hr
          | some d2 =>
            have hr2 : r = LogRecord.event d2 ∨ r ∈ bodyRecords obfuscate rest :=
              List.mem_cons.mp (by simpa only [bodyRecords, hA, if_false, hO] using hr)
            rcases hr2 with h | h
            · left; rw [h]; rfl
            · exact ih r h
    | locationCb city t =>
      have hr2 : r = LogRecord.location city t ∨ r ∈ bodyRecords obfuscate rest :=
        List.mem_cons.mp (by simpa only [bodyRecords] using hr)
      rcases hr2 with h | h
      · right; rw [h]; rfl
      · exact ih r h
    | close t => exact ih r (by simpa [bodyRecords] using hr)

/-- Shape asserted by the claim for the log at enqueue time: exactly one
meta line first, then only event lines, then exactly one close line last.
This definition follows the claim text, to be compared with what the code
produces. -/
def specEventsThenClose : List LogRecord → Bool
  | [LogRecord.close _] => true
  | LogRecord.event _ :: rest => specEventsThenClose rest
  | _ => false

/-- Top level of the claimed shape: a meta line followed by events and a
final close line. -/
def specClaimedLogShape : List LogRecord → Bool
  | LogRecord.meta _ :: rest => specEventsThenClose rest
  | _ => false

/-- Redaction stand-in used for concrete runs on allow-listed traffic:
returns the event unchanged. -/
def obf0 : JVal → Option JVal := fun v => some v

/-- Redaction stand-in whose application always throws. -/
def obfNone : JVal → Option JVal := fun _ => none

/-- Concrete metadata used in concrete runs. -/
def meta0 : MetaRec := mkMeta "/ws" "https://example.org" "agent" 0

/-- Session state right after the connection handler, for concrete
runs. -/
def sessOpen : Session := initSession meta0

/-- Session state after the close handler nulled the stream, for concrete
runs. -/
def sessClosed : Session := { initSession meta0 with tempStream := none }

/-- Session trace with a geolocation hit before one allow-listed event:
the file then carries a location line between the meta line and the
event lines. -/
def c2Trace : List SessEvent :=
  [ SessEvent.locationCb (some "Berlin") 5
  , SessEvent.message (some (JVal.arr [JVal.str "getUserMedia"]))
  , SessEvent.close 9 ]

/-- C2 counterexample: a session with one received event whose address
resolved is enqueued, yet its file is not one meta line, the events and a
close line: a location line sits between the meta line and the first
event line. -/
theorem c2_counterexample :
    (runSession obf0 meta0 c2Trace).enqueued = true ∧
    ((runSession obf0 meta0 c2Trace).finalLog.map specClaimedLogShape)
      = some false := by
  decide

/-- C2 (amended): for every session with at least one successfully parsed
event, the file at the moment of enqueue is exactly one meta line first
and one close line last; in between sit the processed events in receipt
order with at most one location line inserted among them (and nothing
else). -/
theorem c2_log_shape_amended (obfuscate : JVal → Option JVal) (m : MetaRec)
    (body : List SessEvent) (t : Nat)
    (h1 : noClose body = true) (h2 : locCbCount body ≤ 1)
    (h3 : 0 < parseOkCount body) :
    (runSession obfuscate m (body ++ [SessEvent.close t])).enqueued = true ∧
    (runSession obfuscate m (body ++ [SessEvent.close t])).finalLog
      = some (LogRecord.meta m :: (bodyRecords obfuscate body ++ [LogRecord.close t])) ∧
    (bodyRecords obfuscate body).filter isEventRec
      = (appendedEvents obfuscate body).map LogRecord.event ∧
    (bodyRecords obfuscate body).countP isLocRec ≤ 1 ∧
    (∀ r ∈ bodyRecords obfuscate body, isEventRec r = true ∨ isLocRec r = true) := by
  have hbody := foldlBody obfuscate body (initSession m) [LogRecord.meta m] h1 rfl
  have hrun : runSession obfuscate m (body ++ [SessEvent.close t])
      = onClose (body.foldl (sessStep obfuscate) (initSession m)) t := by
    simp [runSession, List.foldl_append, sessStep]
  have hn : (body.foldl (sessStep obfuscate) (initSession m)).numberOfEvents > 0 := by
    rw [hbody.2.1]
    simpa [initSession] using h3
  have hclose : onClose (body.foldl (sessStep obfuscate) (initSession m)) t
      = { body.foldl (sessStep obfuscate) (initSession m) with
            tempStream := none
          , finalLog := some (([LogRecord.meta m] ++ bodyRecords obfuscate body)
              ++ [LogRecord.close t])
          , enqueued := true } := by
    rw [onClose, hbody.1]
    simp [hn]
  refine ⟨?_, ?_, bodyRecords_filter_event obfuscate body, ?_, bodyRecords_kinds obfuscate body⟩
  · rw [hrun, hclose]
  · rw [hrun, hclose]; simp
  · rw [bodyRecords_countLoc obfuscate body]; exact h2

/-- C2 witness trace: a single allow-listed event and no geolocation
callback. -/
def c2Body : List SessEvent :=
  [SessEvent.message (some (JVal.arr [JVal.str "getUserMedia"]))]

/-- Witness for the amended C2 at a concrete session. -/
theorem c2_log_shape_amended_witness :
    (runSession obf0 meta0 (c2Body ++ [SessEvent.close 1])).enqueued = true ∧
    (runSession obf0 meta0 (c2Body ++ [SessEvent.close 1])).finalLog
      = some (LogRecord.meta meta0 :: (bodyRecords obf0 c2Body ++ [LogRecord.close 1])) ∧
    (bodyRecords obf0 c2Body).filter isEventRec
      = (appendedEvents obf0 c2Body).map LogRecord.event ∧
    (bodyRecords obf0 c2Body).countP isLocRec ≤ 1 ∧
    (∀ r ∈ bodyRecords obf0 c2Body, isEventRec r = true ∨ isLocRec r = true) :=
  c2_log_shape_amended obf0 meta0 c2Body 1 (by decide) (by decide) (by decide)

/-- C3: a session whose event counter is zero at close is never enqueued,
and its file is unlinked rather than kept. -/
theorem c3_empty_session_discarded (obfuscate : JVal → Option JVal) (m : MetaRec)
    (body : List SessEvent) (t : Nat)
    (h1 : noClose body = true)
    (h2 : (runSession obfuscate m body).numberOfEvents = 0) :
    (runSession obfuscate m (body ++ [SessEvent.close t])).enqueued = false ∧
    (runSession obfuscate m (body ++ [SessEvent.close t])).fileDeleted = true ∧
    (runSession obfuscate m (body ++ [SessEvent.close t])).finalLog = none := by
  have hbody := foldlBody obfuscate body (initSession m) [LogRecord.meta m] h1 rfl
  have hrun : runSession obfuscate m (body ++ [SessEvent.close t])
      = onClose (body.foldl (sessStep obfuscate) (initSession m)) t := by
    simp [runSession, List.foldl_append, sessStep]
  have hn : ¬ (body.foldl (sessStep obfuscate) (initSession m)).numberOfEvents > 0 := by
    have : (runSession obfuscate m body).numberOfEvents
        = (body.foldl (sessStep obfuscate) (initSession m)).numberOfEvents := rfl
    omega
  have hclose : onClose (body.foldl (sessStep obfuscate) (initSession m)) t
      = { body.foldl (sessStep obfuscate) (initSession m) with
            tempStream := none, finalLog := none, fileDeleted := true } := by
    rw [onClose, hbody.1]
    simp [hn]
  rw [hrun, hclose]
  refine ⟨?_, rfl, rfl⟩
  rw [hbody.2.2.1]
  rfl

/-- Witness for C3: a session that only ever saw a close. -/
theorem c3_witness :
    (runSession obf0 meta0 ([] ++ [SessEvent.close 4])).enqueued = false ∧
    (runSession obf0 meta0 ([] ++ [SessEvent.close 4])).fileDeleted = true ∧
    (runSession obf0 meta0 ([] ++ [SessEvent.close 4])).finalLog = none :=
  c3_empty_session_discarded obf0 meta0 [] 4 rfl rfl

/-- C4: a well formed inbound event whose first element is one of the six
allow-listed tags is appended to the log unmodified; for any other tag
the redaction function is applied to the event before the result is
appended. -/
theorem c4_allowlist_bypass (obfuscate : JVal → Option JVal) (s : Session)
    (log : List LogRecord) (tag : String) (rest : List JVal)
    (h : s.tempStream = some log) :
    (allowList.contains tag = true →
      (sessStep obfuscate s
          (SessEvent.message (some (JVal.arr (JVal.str tag :: rest))))).tempStream
        = some (log ++ [LogRecord.event (JVal.arr (JVal.str tag :: rest))])) ∧
    (allowList.contains tag = false →
      ∀ d2, obfuscate (JVal.arr (JVal.str tag :: rest)) = some d2 →
        (sessStep obfuscate s
            (SessEvent.message (some (JVal.arr (JVal.str tag :: rest))))).tempStream
          = some (log ++ [LogRecord.event d2])) := by
  constructor
  · intro hT
    have hT2 : tag ∈ allowList := by simpa using hT
    simp [sessStep, onMessage, isAllowed, hT2, writeEvent, h]
  · intro hT d2 hO
    have hT2 : tag ∉ allowList := by simpa using hT
    simp [sessStep, onMessage, isAllowed, hT2, hO, writeEvent, h]

/-- Witness for C4: a getUserMedia event passes unredacted, and a custom
event is appended as whatever the redaction function returned. -/
theorem c4_witness :
    ((sessStep obf0 sessOpen
        (SessEvent.message (some (JVal.arr (JVal.str "getUserMedia" :: []))))).tempStream
      = some ([LogRecord.meta meta0]
          ++ [LogRecord.event (JVal.arr (JVal.str "getUserMedia" :: []))])) ∧
    ((sessStep obf0 sessOpen
        (SessEvent.message (some (JVal.arr (JVal.str "custom" :: []))))).tempStream
      = some ([LogRecord.meta meta0]
          ++ [LogRecord.event (JVal.arr [JVal.str "custom"])])) :=
  ⟨(c4_allowlist_bypass obf0 sessOpen [LogRecord.meta meta0] "getUserMedia" [] rfl).1
      (by decide),
   (c4_allowlist_bypass obf0 sessOpen [LogRecord.meta meta0] "custom" [] rfl).2
      (by decide) (JVal.arr [JVal.str "custom"]) rfl⟩

/-- The close handler never changes the event counter, whichever branch
the finish callback takes. -/
theorem onClose_numberOfEvents (s : Session) (t : Nat) :
    (onClose s t).numberOfEvents = s.numberOfEvents := by
  unfold onClose
  split
  · rfl
  · split <;> rfl

/-- Session trace consisting of one unparseable message and the close. -/
def c7Trace : List SessEvent := [SessEvent.message none, SessEvent.close 3]

/-- C7 counterexample: one inbound message whose JSON.parse throws leaves
the event counter at zero at close, so the counter does not equal the
total number of inbound messages malformed ones included. -/
theorem c7_counterexample :
    (runSession obf0 meta0 c7Trace).numberOfEvents = 0 ∧
    inboundCount c7Trace = 1 := by
  decide

/-- C7 (amended): the counter is incremented only after JSON.parse
succeeds, though before classification and redaction, so the counter at
close equals the number of inbound messages that parsed as JSON; messages
whose later processing throws are still counted, unparseable ones are
not. -/
theorem c7_counter_amended (obfuscate : JVal → Option JVal) (m : MetaRec)
    (body : List SessEvent) (t : Nat) (h1 : noClose body = true) :
    (runSession obfuscate m (body ++ [SessEvent.close t])).numberOfEvents
      = parseOkCount body := by
  have hbody := foldlBody obfuscate body (initSession m) [LogRecord.meta m] h1 rfl
  have hrun : runSession obfuscate m (body ++ [SessEvent.close t])
      = onClose (body.foldl (sessStep obfuscate) (initSession m)) t := by
    simp [runSession, List.foldl_append, sessStep]
  have hn2 : (List.foldl (sessStep obfuscate) (initSession m) body).numberOfEvents
      = parseOkCount body := by
    simpa [initSession] using hbody.2.1
  rw [hrun, onClose_numberOfEvents]
  exact hn2

/-- Witness trace for the amended C7: one unparseable message, one parsed
message whose redaction throws, one parsed allow-listed message. -/
def c7Body : List SessEvent :=
  [ SessEvent.message none
  , SessEvent.message (some (JVal.arr [JVal.str "custom"]))
  , SessEvent.message (some (JVal.arr [JVal.str "getUserMedia"])) ]

/-- Witness for the amended C7: the counter ends at two of three inbound
messages. -/
theorem c7_counter_amended_witness :
    (runSession obfNone meta0 (c7Body ++ [SessEvent.close 2])).numberOfEvents
      = parseOkCount c7Body :=
  c7_counter_amended obfNone meta0 c7Body 2 rfl

/-- C8: a message whose JSON.parse throws only increments the error log
counter, and a parsed message whose redaction throws only increments the
event counter and the error log counter: in both cases nothing is
appended, the stream stays as it was, and the handler returns normally to
process further traffic. -/
theorem c8_malformed_dropped (obfuscate : JVal → Option JVal) (s : Session)
    (d : JVal) (h1 : isAllowed d = false) (h2 : obfuscate d = none) :
    sessStep obfuscate s (SessEvent.message none)
      = { s with errorsLogged := s.errorsLogged + 1 } ∧
    sessStep obfuscate s (SessEvent.message (some d))
      = { s with numberOfEvents := s.numberOfEvents + 1
               , errorsLogged := s.errorsLogged + 1 } := by
  constructor
  · rfl
  · simp [sessStep, onMessage, h1, h2]

/-- Witness for C8 at a concrete open session and a concrete event. -/
theorem c8_witness :
    sessStep obfNone sessOpen (SessEvent.message none)
      = { sessOpen with errorsLogged := sessOpen.errorsLogged + 1 } ∧
    sessStep obfNone sessOpen (SessEvent.message (some (JVal.arr [JVal.str "custom"])))
      = { sessOpen with numberOfEvents := sessOpen.numberOfEvents + 1
                      , errorsLogged := sessOpen.errorsLogged + 1 } :=
  c8_malformed_dropped obfNone sessOpen (JVal.arr [JVal.str "custom"]) (by decide) rfl

/-- C9: a geolocation callback firing after the close handler nulled the
stream leaves the whole session state unchanged (the record is silently
dropped, and in particular nothing lands after the close line), while one
firing on an open stream appends a location line. -/
theorem c9_location_race (obfuscate : JVal → Option JVal) (s : Session)
    (city : Option String) (t : Nat) :
    (s.tempStream = none →
      sessStep obfuscate s (SessEvent.locationCb city t) = s) ∧
    (∀ log, s.tempStream = some log →
      (sessStep obfuscate s (SessEvent.locationCb city t)).tempStream
        = some (log ++ [LogRecord.location city t])) := by
  constructor
  · intro h
    simp [sessStep, locationWrite, h]
  · intro log h
    simp [sessStep, locationWrite, h]

/-- Witness for C9: after close the callback is a no-op, before close it
appends the location line. -/
theorem c9_witness :
    (sessStep obf0 sessClosed (SessEvent.locationCb (some "Berlin") 7) = sessClosed) ∧
    ((sessStep obf0 sessOpen (SessEvent.locationCb (some "Berlin") 7)).tempStream
      = some ([LogRecord.meta meta0] ++ [LogRecord.location (some "Berlin") 7])) :=
  ⟨(c9_location_race obf0 sessClosed (some "Berlin") 7).1 rfl,
   (c9_location_race obf0 sessOpen (some "Berlin") 7).2 [LogRecord.meta meta0] rfl⟩

/-- Fields process never touches. -/
theorem process_fields (s : ProcessQueue) :
    s.process.maxProc = s.maxProc ∧ s.process.storePuts = s.storePuts ∧
    s.process.files = s.files ∧ s.process.dbPuts = s.dbPuts ∧
    s.process.processedMetric = s.processedMetric ∧
    s.process.erroredMetric = s.erroredMetric := by
  unfold ProcessQueue.process
  split <;> exact ⟨rfl, rfl, rfl, rfl, rfl, rfl⟩

/-- Fields maybeDispatch never touches. -/
theorem maybeDispatch_fields (s : ProcessQueue) :
    s.maybeDispatch.maxProc = s.maxProc ∧ s.maybeDispatch.storePuts = s.storePuts ∧
    s.maybeDispatch.files = s.files ∧ s.maybeDispatch.dbPuts = s.dbPuts ∧
    s.maybeDispatch.processedMetric = s.processedMetric ∧
    s.maybeDispatch.erroredMetric = s.erroredMetric := by
  unfold ProcessQueue.maybeDispatch
  split
  · exact process_fields s
  · exact ⟨rfl, rfl, rfl, rfl, rfl, rfl⟩

/-- Fields clampNumProc never touches. -/
theorem clamp_fields (s : ProcessQueue) :
    s.clampNumProc.maxProc = s.maxProc ∧ s.clampNumProc.storePuts = s.storePuts ∧
    s.clampNumProc.files = s.files ∧ s.clampNumProc.dbPuts = s.dbPuts ∧
    s.clampNumProc.processedMetric = s.processedMetric ∧
    s.clampNumProc.erroredMetric = s.erroredMetric := by
  unfold ProcessQueue.clampNumProc
  split <;> exact ⟨rfl, rfl, rfl, rfl, rfl, rfl⟩

/-- Effect of recordMetric on each field. -/
theorem recordMetric_fields (s : ProcessQueue) (code : Option Int) :
    (s.recordMetric code).maxProc = s.maxProc ∧
    (s.recordMetric code).numProc = s.numProc ∧
    (s.recordMetric code).storePuts = s.storePuts ∧
    (s.recordMetric code).files = s.files ∧
    (s.recordMetric code).dbPuts = s.dbPuts ∧
    (s.recordMetric code).processedMetric
      = (if code = some 0 then s.processedMetric + 1 else s.processedMetric) ∧
    (s.recordMetric code).erroredMetric
      = (if code = some 0 then s.erroredMetric else s.erroredMetric + 1) := by
  unfold ProcessQueue.recordMetric
  split
  · exact ⟨rfl, rfl, rfl, rfl, rfl, rfl, rfl⟩
  · exact ⟨rfl, rfl, rfl, rfl, rfl, rfl, rfl⟩

/-- A failed read leaves the state exactly as it was. -/
theorem handleReadResult_none (s : ProcessQueue) (id : String) :
    s.handleReadResult id none = s := rfl

/-- The numProc field survives the readFile callback. -/
theorem handleReadResult_numProc (s : ProcessQueue) (id : String) (r : Option String) :
    (s.handleReadResult id r).numProc = s.numProc := by
  unfold ProcessQueue.handleReadResult
  split <;> rfl

/-- The maxProc field survives the readFile callback. -/
theorem handleReadResult_maxProc (s : ProcessQueue) (id : String) (r : Option String) :
    (s.handleReadResult id r).maxProc = s.maxProc := by
  unfold ProcessQueue.handleReadResult
  split <;> rfl

/-- Unfolding of the exit handler when worker w exists and has not fired
exit yet. -/
theorem onExit_eq (s : ProcessQueue) (w : Nat) (code : Option Int)
    (r : Option String) (id : String)
    (h1 : s.forked.get? w = some id) (h2 : w ∉ s.exited) :
    s.onExit w code r
      = ProcessQueue.handleReadResult
          (ProcessQueue.maybeDispatch
            (ProcessQueue.clampNumProc
              (ProcessQueue.recordMetric
                { s with numProc := s.numProc - 1, exited := w :: s.exited }
                code)))
          id r := by
  unfold ProcessQueue.onExit
  simp only [h1]
  rw [if_neg h2]

/-- After the clamp the counter is never negative. -/
theorem clamp_nonneg (s : ProcessQueue) : 0 ≤ s.clampNumProc.numProc := by
  unfold ProcessQueue.clampNumProc
  split
  · next h => show (0 : Int) ≤ 0; omega
  · next h => show (0 : Int) ≤ s.numProc; omega

/-- process keeps a non-negative counter non-negative. -/
theorem process_nonneg (s : ProcessQueue) (h : 0 ≤ s.numProc) :
    0 ≤ s.process.numProc := by
  unfold ProcessQueue.process
  split
  · exact h
  · show (0 : Int) ≤ s.numProc + 1
    omega

/-- maybeDispatch keeps a non-negative counter non-negative. -/
theorem maybeDispatch_nonneg (s : ProcessQueue) (h : 0 ≤ s.numProc) :
    0 ≤ s.maybeDispatch.numProc := by
  unfold ProcessQueue.maybeDispatch
  split
  · exact process_nonneg s h
  · exact h

/-- process keeps the counter at most maxProc when it was strictly below
capacity at dispatch time. -/
theorem process_le (s : ProcessQueue) (h : s.numProc < (s.maxProc : Int)) :
    s.process.numProc ≤ (s.process.maxProc : Int) := by
  unfold ProcessQueue.process
  split
  · omega
  · show s.numProc + 1 ≤ (s.maxProc : Int)
    omega

/-- maybeDispatch preserves the capacity bound. -/
theorem maybeDispatch_le (s : ProcessQueue) (h : s.numProc ≤ (s.maxProc : Int)) :
    s.maybeDispatch.numProc ≤ (s.maybeDispatch.maxProc : Int) := by
  unfold ProcessQueue.maybeDispatch
  split
  · next hlt => exact process_le s hlt
  · exact h

/-- clampNumProc preserves the capacity bound. -/
theorem clamp_le (s : ProcessQueue) (h : s.numProc ≤ (s.maxProc : Int)) :
    s.clampNumProc.numProc ≤ (s.clampNumProc.maxProc : Int) := by
  unfold ProcessQueue.clampNumProc
  split
  · show (0 : Int) ≤ (s.maxProc : Int)
    omega
  · exact h

/-- The exit handler preserves the capacity bound. -/
theorem onExit_le (s : ProcessQueue) (w : Nat) (code : Option Int)
    (r : Option String) (h : s.numProc ≤ (s.maxProc : Int)) :
    (s.onExit w code r).numProc ≤ ((s.onExit w code r).maxProc : Int) := by
  unfold ProcessQueue.onExit
  split
  · exact h
  · split
    · exact h
    · rw [handleReadResult_numProc, handleReadResult_maxProc]
      apply maybeDispatch_le
      apply clamp_le
      have hf := recordMetric_fields
        { s with numProc := s.numProc - 1, exited := w :: s.exited } code
      rw [hf.2.1, hf.1]
      show s.numProc - 1 ≤ (s.maxProc : Int)
      omega

/-- enqueue preserves the capacity bound. -/
theorem enqueue_le (s : ProcessQueue) (id : String)
    (h : s.numProc ≤ (s.maxProc : Int)) :
    (s.enqueue id).numProc ≤ ((s.enqueue id).maxProc : Int) := by
  unfold ProcessQueue.enqueue
  exact maybeDispatch_le { s with q := s.q ++ [id] } h

/-- The error handler preserves the capacity bound (it only lowers the
counter). -/
theorem onError_le (s : ProcessQueue) (w : Nat)
    (h : s.numProc ≤ (s.maxProc : Int)) :
    (s.onError w).numProc ≤ ((s.onError w).maxProc : Int) := by
  unfold ProcessQueue.onError
  split
  · exact h
  · split
    · exact h
    · show s.numProc - 1 ≤ (s.maxProc : Int)
      omega

/-- The message handler preserves the capacity bound. -/
theorem onMessage_le (s : ProcessQueue) (w : Nat) (m : DbMsg)
    (h : s.numProc ≤ (s.maxProc : Int)) :
    (s.onMessage w m).numProc ≤ ((s.onMessage w m).maxProc : Int) := by
  unfold ProcessQueue.onMessage
  split
  · exact h
  · exact h

/-- Every queue step preserves the capacity bound. -/
theorem qStep_le (s : ProcessQueue) (e : QEvent)
    (h : s.numProc ≤ (s.maxProc : Int)) :
    (qStep s e).numProc ≤ ((qStep s e).maxProc : Int) := by
  cases e with
  | enqueue id => exact enqueue_le s id h
  | exited w code r => exact onExit_le s w code r h
  | message w m => exact onMessage_le s w m h
  | errored w => exact onError_le s w h

/-- The capacity bound is inductive along any event sequence. -/
theorem foldl_le (evs : List QEvent) :
    ∀ s : ProcessQueue, s.numProc ≤ (s.maxProc : Int) →
      (evs.foldl qStep s).numProc ≤ ((evs.foldl qStep s).maxProc : Int) := by
  induction evs with
  | nil => intro s h; exact h
  | cons e rest ih => intro s h; exact ih (qStep s e) (qStep_le s e h)

/-- Event sequence reaching a negative worker counter: two sessions are
dispatched, worker 1 spawn-fails firing error then exit (the exit
re-dispatches its id as worker 2), then workers 0 and 2 spawn-fail with
error alone. Each decrement of the two error-only failures is matched
against credit the exit clamp already absorbed, so the last error drives
numProc to minus one with nothing left to clamp it. -/
def c1Trace : List QEvent :=
  [ QEvent.enqueue "A"
  , QEvent.enqueue "B"
  , QEvent.errored 1
  , QEvent.exited 1 none none
  , QEvent.errored 0
  , QEvent.errored 2 ]

/-- C1 counterexample: with capacity 2 the interleaving c1Trace leaves
numProc at minus one, so the counter does not stay non-negative at all
times and the spawn-failure decrement is propagated, not clamped. -/
theorem c1_counterexample :
    (runQueue 2 c1Trace).numProc = -1 ∧
    ¬ (0 ≤ (runQueue 2 c1Trace).numProc) := by
  decide

/-- C1 (amended): for every interleaving the counter never exceeds the
capacity, and the exit handler restores non-negativity, clamping any
negative count to zero before it returns; only the spawn-failure handler
can leave the counter negative, until the next worker exit. -/
theorem c1_inflight_bounds_amended :
    (∀ (maxProc : Nat) (evs : List QEvent),
        (runQueue maxProc evs).numProc ≤ ((runQueue maxProc evs).maxProc : Int)) ∧
    (∀ (s : ProcessQueue) (w : Nat) (code : Option Int) (r : Option String)
        (id : String),
        s.forked.get? w = some id → w ∉ s.exited →
        0 ≤ (qStep s (QEvent.exited w code r)).numProc) := by
  constructor
  · intro maxProc evs
    refine foldl_le evs (initQueue maxProc) ?_
    show (0 : Int) ≤ (maxProc : Int)
    omega
  · intro s w code r id h1 h2
    show 0 ≤ (s.onExit w code r).numProc
    rw [onExit_eq s w code r id h1 h2, handleReadResult_numProc]
    exact maybeDispatch_nonneg _ (clamp_nonneg _)

/-- Queue state used by the concrete witnesses: one worker in flight for
session X whose raw log is on disk. -/
def qWitnessState : ProcessQueue :=
  { initQueue 2 with forked := ["X"], numProc := 1, files := [("X", "rawlog")] }

/-- Witness for the amended C1: a concrete exit step lands on a
non-negative counter. -/
theorem c1_inflight_bounds_amended_witness :
    0 ≤ (qStep qWitnessState (QEvent.exited 0 (some 0) none)).numProc :=
  c1_inflight_bounds_amended.2 qWitnessState 0 (some 0) none "X" rfl (by decide)

/-- Unfolding of a successful readFile callback. -/
theorem handleReadResult_some_eq (s : ProcessQueue) (id : String) (data : String) :
    s.handleReadResult id (some data)
      = { s with files := s.files.filter (fun kv => kv.1 ≠ id)
               , storePuts := s.storePuts ++ [(id, data)] } := rfl

/-- C5: every result message a forked worker emits is forwarded to the
metadata index, and on any worker exit, whatever the exit code, a
successful read of the raw log forwards its full contents to the store
and removes the file from the working directory, while the success metric
ticks exactly for exit code zero and the error metric otherwise. -/
theorem c5_worker_exit_forwarding :
    (∀ (s : ProcessQueue) (w : Nat) (m : DbMsg) (id : String),
        s.forked.get? w = some id →
        (s.onMessage w m).dbPuts = s.dbPuts ++ [m]) ∧
    (∀ (s : ProcessQueue) (w : Nat) (code : Option Int) (data : String)
        (id : String),
        s.forked.get? w = some id → w ∉ s.exited →
        (s.onExit w code (some data)).storePuts = s.storePuts ++ [(id, data)] ∧
        (s.onExit w code (some data)).files
          = s.files.filter (fun kv => kv.1 ≠ id) ∧
        (s.onExit w code (some data)).processedMetric
          = (if code = some 0 then s.processedMetric + 1 else s.processedMetric) ∧
        (s.onExit w code (some data)).erroredMetric
          = (if code = some 0 then s.erroredMetric else s.erroredMetric + 1)) := by
  constructor
  · intro s w m id h1
    unfold ProcessQueue.onMessage
    simp only [h1]
  · intro s w code data id h1 h2
    rw [onExit_eq s w code (some data) id h1 h2, handleReadResult_some_eq]
    refine ⟨?_, ?_, ?_, ?_⟩ <;>
      simp [maybeDispatch_fields, clamp_fields, recordMetric_fields]

/-- Result message used in the concrete witnesses. -/
def msg0 : DbMsg :=
  { url := "https://example.org/ws"
  , clientid := "X"
  , connid := "c0"
  , clientFeatures := "cf"
  , connectionFeatures := "nf"
  , streamFeatures := "sf" }

/-- Witness for C5: a worker that emitted one result message and exited
with status 1 still gets its message forwarded and its raw log stored and
removed, with the error metric ticking. -/
theorem c5_witness :
    ((qWitnessState.onMessage 0 msg0).dbPuts = qWitnessState.dbPuts ++ [msg0]) ∧
    ((qWitnessState.onExit 0 (some 1) (some "rawlog")).storePuts
        = qWitnessState.storePuts ++ [("X", "rawlog")] ∧
     (qWitnessState.onExit 0 (some 1) (some "rawlog")).files
        = qWitnessState.files.filter (fun kv => kv.1 ≠ "X") ∧
     (qWitnessState.onExit 0 (some 1) (some "rawlog")).processedMetric
        = (if (some 1 : Option Int) = some 0 then qWitnessState.processedMetric + 1
           else qWitnessState.processedMetric) ∧
     (qWitnessState.onExit 0 (some 1) (some "rawlog")).erroredMetric
        = (if (some 1 : Option Int) = some 0 then qWitnessState.erroredMetric
           else qWitnessState.erroredMetric + 1)) :=
  ⟨c5_worker_exit_forwarding.1 qWitnessState 0 msg0 "X" rfl,
   c5_worker_exit_forwarding.2 qWitnessState 0 (some 1) "rawlog" "X" rfl (by decide)⟩

/-- C6: a spawn failure re-enqueues the affected session id exactly once,
appended at the tail of the pending queue, decrements the counter, and
does nothing else: in particular it forks no worker and schedules no
dispatch from inside the handler. -/
theorem c6_spawn_failure_requeue (s : ProcessQueue) (w : Nat) (id : String)
    (h1 : s.forked.get? w = some id) (h2 : w ∉ s.errored) :
    s.onError w
      = { s with numProc := s.numProc - 1
               , errored := w :: s.errored
               , q := s.q ++ [id] } := by
  unfold ProcessQueue.onError
  simp only [h1]
  rw [if_neg h2]

/-- Witness for C6 at a concrete in-flight worker. -/
theorem c6_witness :
    qWitnessState.onError 0
      = { qWitnessState with
            numProc := qWitnessState.numProc - 1
          , errored := 0 :: qWitnessState.errored
          , q := qWitnessState.q ++ ["X"] } :=
  c6_spawn_failure_requeue qWitnessState 0 "X" rfl (by decide)

/-- C10: when the read of the raw log fails in the exit handler, nothing
is forwarded to the store and the file entry is left in the working
directory untouched. -/
theorem c10_read_failure_keeps_file (s : ProcessQueue) (w : Nat)
    (code : Option Int) (id : String)
    (h1 : s.forked.get? w = some id) (h2 : w ∉ s.exited) :
    (s.onExit w code none).storePuts = s.storePuts ∧
    (s.onExit w code none).files = s.files := by
  rw [onExit_eq s w code none id h1 h2, handleReadResult_none]
  constructor <;>
    simp [maybeDispatch_fields, clamp_fields, recordMetric_fields]

/-- Witness for C10 at a concrete in-flight worker. -/
theorem c10_witness :
    (qWitnessState.onExit 0 (some 1) none).storePuts = qWitnessState.storePuts ∧
    (qWitnessState.onExit 0 (some 1) none).files = qWitnessState.files :=
  c10_read_failure_keeps_file qWitnessState 0 (some 1) "X" rfl (by decide)

end RtcStats
